import Mathlib

/-!
Verification of the Amulet-Core kernel (`src/kernel/core.rs`, `src/rights.rs`,
`src/primitives.rs`, `src/error.rs`, `src/types.rs`, `src/crypto.rs`,
`src/kernel/runtime.rs`) against its natural-language specification.

Modelling conventions (shallow embedding):
* Byte strings (`Vec<u8>`, `[u8; N]`) are `List Nat`, one entry per byte.
* The fixed-width identifiers `CidBytes([u8; 32])` and `ReplicaIdBytes([u8; 16])`
  are modelled as natural numbers; their digest serialisation is the fixed-width
  big-endian byte expansion (`cidBytes`, `ridBytes`).  Rust's derived `Ord` on a
  fixed-width byte array is lexicographic byte order, which coincides with the
  numeric order of the big-endian value, so sorting the naturals by `≤` models
  `sort_unstable` on the byte arrays.
* `u64` values (clocks, versions, nonces) are naturals.  The kernel guards
  `local_lc == u64::MAX` before computing `local_lc + 1`, so that addition never
  overflows; the one unguarded u64 addition, `prev.header.version + 1` in
  `append_delta`'s version check, is modelled with the release-build wrapping
  semantics `(prev.header.version + 1) % 2^64` (a debug build would panic at
  the wrapping input instead of returning anything).
* `HashMap<K, V>` is an association list with distinct keys; `alInsert` replaces
  an existing binding in place or appends, matching `HashMap::insert`, and
  map-valued facts are stated through `alLookup` / `vcGet`.
* `Result<T, E>` is `Except E T`; `&mut self` methods are functions returning
  the updated component alongside the result.
* The kernel's generic parameters `CP: CryptoProvider` and `R: Runtime<CP>`,
  and the payload bound `C: EncodedCmd`, become function-valued fields
  (`crypto_hash`, `crypto_verify`, `runtime`, `ops`): any Rust instantiation is
  one choice of these functions.  Payload/crypto error types are rendered as
  the strings their `Debug`/`Display` formatting contributes to error messages;
  the decimal rendering of a CID stands in for its Rust `Debug` output inside
  `InvariantViolation` messages (no claim inspects those substrings).
-/

namespace Amulet

/-- A byte string: each entry is one byte. -/
abbrev Bytes := List Nat

/-- `CidBytes([u8; 32])` from `primitives.rs`, modelled numerically. -/
abbrev CID := Nat

/-- `ReplicaIdBytes([u8; 16])` from `primitives.rs`, modelled numerically. -/
abbrev ReplicaID := Nat

/-- `PublicKeyBytes([u8; 32])`, opaque to the kernel. -/
abbrev PublicKey := Nat

/-- `SignatureBytes([u8; 64])`, opaque to the kernel. -/
abbrev Signature := Nat

/-- `u64::MAX`. -/
def u64MAX : Nat := 2 ^ 64 - 1

/-- Fixed-width big-endian byte expansion (`w` bytes). -/
def beBytes (w n : Nat) : Bytes :=
  (List.range w).map (fun i => n / 2 ^ (8 * (w - 1 - i)) % 256)

/-- The 32 raw bytes of a CID (`cid.0` in the Rust digest helpers). -/
def cidBytes (c : CID) : Bytes := beBytes 32 c

/-- The 16 raw bytes of a ReplicaID (`replica_id.0`). -/
def ridBytes (r : ReplicaID) : Bytes := beBytes 16 r

/-- `u64::to_le_bytes`: 8 bytes, little-endian. -/
def u64le (n : Nat) : Bytes := (List.range 8).map (fun i => n / 2 ^ (8 * i) % 256)

/-- `u32::to_le_bytes`: 4 bytes, little-endian. -/
def u32le (n : Nat) : Bytes := (List.range 4).map (fun i => n / 2 ^ (8 * i) % 256)

/-- `AlgSuite` from `types.rs`. -/
inductive AlgSuite : Type
  | CLASSIC
  | FIPS
  | PQC
  | HYBRID
deriving DecidableEq, Repr

/-- `impl TryFrom<u8> for AlgSuite` from `types.rs`. -/
def algSuiteTryFrom (value : Nat) : Except String AlgSuite :=
  match value with
  | 0 => .ok .CLASSIC
  | 1 => .ok .FIPS
  | 2 => .ok .PQC
  | 3 => .ok .HYBRID
  | _ => .error ("Invalid AlgSuite tag: " ++ toString value)

/-- `CryptoError` from `src/crypto.rs` (the provider-trait error used by the
kernel; its `Display` strings are irrelevant to the claims). -/
inductive CryptoError : Type
  | InvalidSignature
  | HashingFailure (details : String)
  | UnsupportedAlgorithmSuite (tag : Nat)
  | Other (details : String)
deriving DecidableEq, Repr

/-- `KernelError` from `src/error.rs`.  The variant wrapping a crypto error is
named `CryptoErr` here (source: `CryptoError(CryptoError)`, constructed in
`core.rs` as `KernelError::Crypto`). -/
inductive KernelError : Type
  | CapabilityNotFound
  | AlgorithmSuiteMismatch
  | SignatureVerificationFailed
  | InsufficientRights
  | InvalidCommandLClock
  | CapabilityExpired
  | InvariantViolation (details : String)
  | RuntimeError (details : String)
  | CryptoErr (e : CryptoError)
  | Other (details : String)
deriving DecidableEq, Repr

/-- `HashMap` lookup, modelled on an association list. -/
def alLookup {α : Type} : List (Nat × α) → Nat → Option α
  | [], _ => none
  | (k, v) :: rest, key => if k = key then some v else alLookup rest key

/-- `HashMap::insert`: replace the binding for `key` if present, else add it. -/
def alInsert {α : Type} : List (Nat × α) → Nat → α → List (Nat × α)
  | [], key, v => [(key, v)]
  | (k, w) :: rest, key, v =>
      if k = key then (k, v) :: rest else (k, w) :: alInsert rest key v

/-- `VClock` from `primitives.rs`: a map `ReplicaID → u64`, as an association
list with distinct keys. -/
abbrev VClock := List (ReplicaID × Nat)

/-- Value of a vector clock at a replica; a missing key is implicitly 0. -/
def vcGet (vc : VClock) (r : ReplicaID) : Nat := (alLookup vc r).getD 0

/-- Well-formedness of the association-list rendering of a `HashMap`:
all keys are distinct (guaranteed by `HashMap` in the source). -/
def vclockWF (vc : VClock) : Prop := vc.Pairwise (fun p q => p.1 ≠ q.1)

instance (vc : VClock) : Decidable (vclockWF vc) := by
  unfold vclockWF; infer_instance

/-- `VClock::merge_into` from `primitives.rs`: for each entry of `other`,
`self[r] = max(self.get(r).unwrap_or(0), t)`; entries of `self` absent from
`other` are retained. -/
def merge_into (self other : VClock) : VClock :=
  other.foldl (fun s p => alInsert s p.1 (max (vcGet s p.1) p.2)) self

/-- `EntityHeader` from `primitives.rs`. -/
structure EntityHeader : Type where
  id : CID
  version : Nat
  lclock : Nat
  parent : Option CID
deriving DecidableEq, Repr

/-- `Entity<Vec<u8>>` from `primitives.rs` (bodies in serialised form, as the
kernel stores them). -/
structure Entity : Type where
  header : EntityHeader
  body : Bytes
deriving DecidableEq, Repr

/-- `Capability` from `primitives.rs`. -/
structure Capability : Type where
  id : CID
  alg_suite : Nat
  holder : PublicKey
  target_entity : CID
  rights : Nat
  nonce : Nat
  expiry_lc : Option Nat
  kind : Nat
  signature : Signature
deriving DecidableEq, Repr

/-- `Command<P>` from `primitives.rs`. -/
structure Command (P : Type) : Type where
  id : CID
  alg_suite : Nat
  replica : ReplicaID
  capability : CID
  lclock : Nat
  vclock : Option VClock
  payload : P
  signature : Signature

/-- `Event` from `primitives.rs`. -/
structure Event : Type where
  id : CID
  alg_suite : Nat
  replica : ReplicaID
  caused_by : CID
  lclock : Nat
  vclock : VClock
  new_entities : List CID
  updated_entities : List CID
  reserved : Bytes
deriving DecidableEq, Repr

/-- `StateDelta` from `kernel/core.rs`. -/
structure StateDelta : Type where
  new_entities : List Entity
  updated_entities : List Entity
deriving DecidableEq, Repr

/-- `SystemState` (Σ) from `kernel/core.rs`. -/
structure SystemState : Type where
  capabilities : List (CID × Capability)
  entities : List (CID × Entity)
  event_log : List Event
deriving DecidableEq, Repr

/-- The `EncodedCmd` trait operations from `command_traits.rs` that the kernel
uses (`required_rights`, `to_signed_bytes`; `encode` is included for
completeness).  The associated error type is rendered as `String`. -/
structure EncodedCmdOps (P : Type) : Type where
  encode : P → Bytes
  required_rights : P → Nat
  to_signed_bytes : P → CID → AlgSuite → ReplicaID → CID → Nat → Except String Bytes

/-- `Kernel<CP, R>` from `kernel/core.rs`.  The trait objects become
function-valued fields (see the header comment). -/
structure Kernel (P : Type) : Type where
  local_lc : Nat
  local_vc : VClock
  state : SystemState
  replica_id : ReplicaID
  runtime : SystemState → Command P → Except KernelError StateDelta
  crypto_hash : Bytes → AlgSuite → Except CryptoError CID
  crypto_verify : Bytes → Signature → PublicKey → AlgSuite → Except CryptoError Unit
  ops : EncodedCmdOps P

/-- `rights::core::READ`. -/
def READ : Nat := 1

/-- `rights::core::WRITE`. -/
def WRITE : Nat := 2

/-- `rights::core::DELEGATE`. -/
def DELEGATE : Nat := 4

/-- `rights::core::ISSUE`. -/
def ISSUE : Nat := 8

/-- `rights::core::REVOKE`. -/
def REVOKE : Nat := 16

/-- `rights::canonicalise` from `rights.rs`: if the WRITE bit is set, set the
READ bit as well. -/
def canonicalise (mask : Nat) : Nat :=
  if mask &&& WRITE = WRITE then mask ||| READ else mask

/-- `rights::sufficient` from `rights.rs`. -/
def sufficient (haveMask needMask : Nat) : Bool :=
  canonicalise haveMask &&& needMask == needMask

/-- `Kernel::generate_cid` from `kernel/core.rs`. -/
def generate_cid {P : Type} (k : Kernel P) (data : Bytes) (alg_suite_tag : Nat) :
    Except KernelError CID :=
  match algSuiteTryFrom alg_suite_tag with
  | .error e => .error (.Other ("Invalid AlgSuite tag: " ++ e))
  | .ok suite =>
      match k.crypto_hash data suite with
      | .error ce => .error (.CryptoErr ce)
      | .ok c => .ok c

/-- `Kernel::append_event_identity_for_digest` from `kernel/core.rs`. -/
def append_event_identity_for_digest (bytes : Bytes) (caused_by_command_id : CID)
    (event_lclock : Nat) (event_replica_id : ReplicaID) (event_alg_suite_tag : Nat) :
    Bytes :=
  bytes ++ cidBytes caused_by_command_id ++ u64le event_lclock
    ++ ridBytes event_replica_id ++ [event_alg_suite_tag]

/-- `sort_unstable` on CIDs (lexicographic byte order = numeric order of the
big-endian value). -/
def sortCids (cids : List CID) : List CID := List.insertionSort (· ≤ ·) cids

/-- `Kernel::append_cids_for_digest` from `kernel/core.rs`: sort, then append
the raw 32-byte form of each CID. -/
def append_cids_for_digest (bytes : Bytes) (cids : List CID) : Bytes :=
  (sortCids cids).foldl (fun b c => b ++ cidBytes c) bytes

/-- Key order on vector-clock entries (`sort_unstable_by_key(|(k, _)| *k)`). -/
def keyLE (p q : ReplicaID × Nat) : Prop := p.1 ≤ q.1

instance : DecidableRel keyLE := fun p q => Nat.decLe p.1 q.1

instance : IsTotal (ReplicaID × Nat) keyLE := ⟨fun p q => Nat.le_total p.1 q.1⟩

instance : IsTrans (ReplicaID × Nat) keyLE := ⟨fun _ _ _ h h' => Nat.le_trans h h'⟩

/-- Vector-clock entries sorted by ReplicaID ascending. -/
def vcSortedEntries (vc : VClock) : List (ReplicaID × Nat) :=
  List.insertionSort keyLE vc

/-- `Kernel::append_vector_clock_for_digest` from `kernel/core.rs`: one
presence byte `1`, then the entries sorted by ReplicaID. -/
def append_vector_clock_for_digest (bytes : Bytes) (vclock : VClock) : Bytes :=
  (vcSortedEntries vclock).foldl
    (fun b p => b ++ ridBytes p.1 ++ u64le p.2) (bytes ++ [1])

/-- `Kernel::get_event_hash_input` from `kernel/core.rs`. -/
def get_event_hash_input (caused_by_command_id : CID) (event_lclock : Nat)
    (event_replica_id : ReplicaID) (event_alg_suite_tag : Nat)
    (new_entities_cids updated_entities_cids : List CID) (vector_clock : VClock)
    (reserved_bytes : Bytes) : Bytes :=
  let b0 := append_event_identity_for_digest [] caused_by_command_id event_lclock
    event_replica_id event_alg_suite_tag
  let b1 := append_cids_for_digest b0 new_entities_cids
  let b2 := append_cids_for_digest b1 updated_entities_cids
  let b3 := append_vector_clock_for_digest b2 vector_clock
  b3 ++ u32le reserved_bytes.length ++ reserved_bytes

/-- The check applied to each updated entity in `append_delta` (loop 2):
fails when the prior version is absent or the version does not increment.
The source computes `prev.header.version + 1` on a `u64` with no overflow
guard: at `prev.header.version = u64::MAX` a release build wraps to 0 (so an
update carrying version 0 passes), which the `% 2^64` models; a debug build
panics there. -/
def updCheckFails (entities : List (CID × Entity)) (upd : Entity) : Bool :=
  match alLookup entities upd.header.id with
  | some prev => upd.header.version != (prev.header.version + 1) % 2 ^ 64
  | none => true

/-- The `InvariantViolation` message of `append_delta`'s loop 2 (the decimal
rendering of the CID stands in for Rust's `Debug` output). -/
def updViolationMsg (entities : List (CID × Entity)) (upd : Entity) : String :=
  match alLookup entities upd.header.id with
  | some _ =>
      "Entity version monotonicity violated for CID " ++ toString upd.header.id
  | none =>
      "Updated entity with CID " ++ toString upd.header.id ++ " not found in state"

/-- `Kernel::append_delta` from `kernel/core.rs`, on the `Σ.entities` component
it reads and writes.  The three check loops run before any insertion, exactly
as in the source; like the `&mut self` original, the possibly-updated map is
returned alongside the result (unchanged on every error path). -/
def append_delta (entities : List (CID × Entity)) (delta : StateDelta)
    (lclock_new : Nat) : Except KernelError Unit × List (CID × Entity) :=
  if delta.new_entities.any (fun ent => (alLookup entities ent.header.id).isSome) then
    (.error (.InvariantViolation "New entity CID already exists in state"), entities)
  else
    match delta.updated_entities.find? (fun upd => updCheckFails entities upd) with
    | some upd => (.error (.InvariantViolation (updViolationMsg entities upd)), entities)
    | none =>
        if (delta.new_entities ++ delta.updated_entities).any
            (fun ent => ent.header.lclock != lclock_new) then
          (.error (.InvariantViolation "Entity lclock must equal event lclock"), entities)
        else
          (.ok (), (delta.new_entities ++ delta.updated_entities).foldl
            (fun m ent => alInsert m ent.header.id ent) entities)

/-- The lclock overwrite applied by `apply` before `append_delta`
(`entity.header.lclock = lclock_new` over both delta lists). -/
def setDeltaLclocks (lclock_new : Nat) (delta : StateDelta) : StateDelta :=
  { new_entities :=
      delta.new_entities.map
        (fun e => { e with header := { e.header with lclock := lclock_new } })
    updated_entities :=
      delta.updated_entities.map
        (fun e => { e with header := { e.header with lclock := lclock_new } }) }

/-- `Kernel::materialise_event` from `kernel/core.rs`. -/
def materialise_event {P : Type} (k : Kernel P) (command : Command P)
    (delta : StateDelta) (lclock_new : Nat) (vc_new : VClock) :
    Except KernelError Event :=
  let new_cids := delta.new_entities.map (fun e => e.header.id)
  let updated_cids := delta.updated_entities.map (fun e => e.header.id)
  let reserved_for_new_event : Bytes := []
  let input := get_event_hash_input command.id lclock_new k.replica_id
    command.alg_suite new_cids updated_cids vc_new reserved_for_new_event
  match generate_cid k input command.alg_suite with
  | .error e => .error e
  | .ok event_id =>
      .ok { id := event_id
            alg_suite := command.alg_suite
            replica := k.replica_id
            caused_by := command.id
            lclock := lclock_new
            vclock := vc_new
            new_entities := new_cids
            updated_entities := updated_cids
            reserved := reserved_for_new_event }

/-- `Kernel::verify_signature` from `kernel/core.rs`. -/
def verify_signature {P : Type} (k : Kernel P) (command : Command P) :
    Except KernelError Unit :=
  match algSuiteTryFrom command.alg_suite with
  | .error e => .error (.Other ("Invalid AlgSuite tag in command: " ++ e))
  | .ok crypto_alg_suite =>
      match k.ops.to_signed_bytes command.payload command.id crypto_alg_suite
          command.replica command.capability command.lclock with
      | .error e =>
          .error (.Other ("Failed to get signed bytes from command payload: " ++ e))
      | .ok signed_bytes =>
          match alLookup k.state.capabilities command.capability with
          | none => .error .CapabilityNotFound
          | some cap =>
              match k.crypto_verify signed_bytes command.signature cap.holder
                  crypto_alg_suite with
              | .error ce => .error (.CryptoErr ce)
              | .ok _ => .ok ()

/-- `Kernel::rights_sufficient` from `kernel/core.rs`. -/
def rights_sufficient {P : Type} (k : Kernel P) (capability : Capability)
    (cmd_payload : P) : Except KernelError Unit :=
  if sufficient capability.rights (k.ops.required_rights cmd_payload) then
    .ok ()
  else
    .error .InsufficientRights

/-- The tail of `validate_command` after the expiry check (signature, rights,
command-lclock checks, in source order; split out for lemma reuse). -/
def validateAfterExpiry {P : Type} (k : Kernel P) (command : Command P)
    (current_lc : Nat) (cap : Capability) : Except KernelError Unit :=
  match verify_signature k command with
  | .error e => .error e
  | .ok _ =>
      match rights_sufficient k cap command.payload with
      | .error e => .error e
      | .ok _ =>
          if command.lclock < current_lc then .error .InvalidCommandLClock
          else .ok ()

/-- `Kernel::validate_command` from `kernel/core.rs`. -/
def validate_command {P : Type} (k : Kernel P) (command : Command P)
    (current_lc : Nat) : Except KernelError Unit :=
  match alLookup k.state.capabilities command.capability with
  | none => .error .CapabilityNotFound
  | some cap =>
      if command.alg_suite ≠ cap.alg_suite then
        .error .AlgorithmSuiteMismatch
      else
        match cap.expiry_lc with
        | some expiry =>
            if current_lc ≥ expiry then .error .CapabilityExpired
            else validateAfterExpiry k command current_lc cap
        | none => validateAfterExpiry k command current_lc cap

/-- The error returned by `apply` when `local_lc == u64::MAX`
(`kernel/core.rs` line 356; `KernelError` has no dedicated overflow variant). -/
def lamportOverflowError : KernelError :=
  .Other "Replica has reached maximum Lamport clock value and cannot process further commands."

/-- Step 6 of `apply`: the command's vector clock, if present, merged into the
kernel's current one (`if let Some(cmd_vc) = &command.vclock`). -/
def mergedCmdVClock (local_vc : VClock) (cmdVClock : Option VClock) : VClock :=
  match cmdVClock with
  | some cmd_vc => merge_into local_vc cmd_vc
  | none => local_vc

/-- `Kernel::apply` from `kernel/core.rs`.  Returns the result together with
the kernel as left by the call (the `&mut self` receiver), preserving the
source's mutation order: entities are materialised by `append_delta`, then
`local_lc` and `local_vc` advance, then `materialise_event` may still fail. -/
def apply {P : Type} (k : Kernel P) (command : Command P) :
    Except KernelError Event × Kernel P :=
  if k.local_lc = u64MAX then
    (.error lamportOverflowError, k)
  else
    match validate_command k command k.local_lc with
    | .error e => (.error e, k)
    | .ok _ =>
        let lclock_new := max command.lclock (k.local_lc + 1)
        match k.runtime k.state command with
        | .error e => (.error e, k)
        | .ok delta0 =>
            let delta := setDeltaLclocks lclock_new delta0
            match append_delta k.state.entities delta lclock_new with
            | (.error e, entities1) =>
                (.error e, { k with state := { k.state with entities := entities1 } })
            | (.ok _, entities1) =>
                let k1 : Kernel P :=
                  { k with state := { k.state with entities := entities1 } }
                let k2 : Kernel P := { k1 with local_lc := lclock_new }
                let vc1 := mergedCmdVClock k2.local_vc command.vclock
                let vc_for_event := alInsert vc1 k.replica_id lclock_new
                let k3 : Kernel P := { k2 with local_vc := vc_for_event }
                match materialise_event k3 command delta lclock_new vc_for_event with
                | .error e => (.error e, k3)
                | .ok event =>
                    (.ok event,
                     { k3 with state :=
                        { k3.state with event_log := k3.state.event_log ++ [event] } })

/-- `Kernel::process_incoming_event` from `kernel/core.rs`. -/
def process_incoming_event {P : Type} (k : Kernel P) (evt : Event) :
    Except KernelError Unit × Kernel P :=
  let k1 : Kernel P := { k with local_lc := max k.local_lc evt.lclock }
  let k2 : Kernel P := { k1 with local_vc := merge_into k1.local_vc evt.vclock }
  (.ok (), k2)

/-- `DefaultRuntime::execute` from `kernel/runtime.rs`: always the empty delta. -/
def defaultRuntime {P : Type} :
    SystemState → Command P → Except KernelError StateDelta :=
  fun _ _ => .ok { new_entities := [], updated_entities := [] }

/-! ### Definitions following the specification's words (for refinement claims) -/

/-- Modelled from the spec (§4.7): the event-hash input written as one flat
concatenation — command id (32 bytes), lclock (8 bytes LE), replica id
(16 bytes), suite tag (1 byte), sorted new-entity CIDs, sorted updated-entity
CIDs, marker byte `0x01` followed by vclock entries sorted by ReplicaID
(16-byte id then 8-byte LE counter), 4-byte LE length prefix and the reserved
bytes.  Compared against `get_event_hash_input`, which is translated from the
source's buffer-appending helpers. -/
def specEventHashLayout (caused_by_command_id : CID) (event_lclock : Nat)
    (event_replica_id : ReplicaID) (event_alg_suite_tag : Nat)
    (new_entities_cids updated_entities_cids : List CID) (vector_clock : VClock)
    (reserved_bytes : Bytes) : Bytes :=
  cidBytes caused_by_command_id ++ u64le event_lclock ++ ridBytes event_replica_id
    ++ [event_alg_suite_tag]
    ++ ((sortCids new_entities_cids).map cidBytes).flatten
    ++ ((sortCids updated_entities_cids).map cidBytes).flatten
    ++ [1]
    ++ ((vcSortedEntries vector_clock).map (fun p => ridBytes p.1 ++ u64le p.2)).flatten
    ++ u32le reserved_bytes.length ++ reserved_bytes

/-- The failure condition of `append_delta` in the amended claim C4's words:
some new entity already exists, some updated entity is absent, some updated
entity's version differs from the stored version + 1 computed in wrapping
64-bit arithmetic (the u64 release semantics of the source's unguarded
addition), or some entity's lclock differs from `lclock_new`. -/
def deltaViolation (entities : List (CID × Entity)) (delta : StateDelta)
    (lclock_new : Nat) : Prop :=
  (∃ ent ∈ delta.new_entities, (alLookup entities ent.header.id).isSome = true)
  ∨ (∃ upd ∈ delta.updated_entities,
       alLookup entities upd.header.id = none
       ∨ ∃ prev, alLookup entities upd.header.id = some prev
           ∧ upd.header.version ≠ (prev.header.version + 1) % 2 ^ 64)
  ∨ (∃ ent ∈ delta.new_entities ++ delta.updated_entities,
       ent.header.lclock ≠ lclock_new)

/-- The successful result of `append_delta`: every delta entity inserted into
the entity map keyed by CID, new entities first, later insertions overwriting. -/
def insertAll (entities : List (CID × Entity)) (delta : StateDelta) :
    List (CID × Entity) :=
  (delta.new_entities ++ delta.updated_entities).foldl
    (fun m ent => alInsert m ent.header.id ent) entities

/-! ### Concrete instantiations used by witnesses and counterexamples -/

/-- A trivial payload type (the kernel is generic over payloads). -/
abbrev UnitPayload := Unit

/-- `EncodedCmd` operations for the trivial payload: empty encodings, no
required rights. -/
def unitOps : EncodedCmdOps UnitPayload :=
  { encode := fun _ => []
    required_rights := fun _ => 0
    to_signed_bytes := fun _ _ _ _ _ _ => .ok [] }

/-- A crypto provider whose hash always succeeds (like
`PlaceholderCryptoProvider`, collapsed to a constant digest). -/
def okHash : Bytes → AlgSuite → Except CryptoError CID := fun _ _ => .ok 0

/-- A crypto provider whose hash fails — permitted by the `CryptoProvider`
contract, whose `hash` returns `Result<[u8; 32], CryptoError>`. -/
def failHash : Bytes → AlgSuite → Except CryptoError CID :=
  fun _ _ => .error (.HashingFailure "provider failure")

/-- A verifier that accepts every signature (the `PlaceholderCryptoProvider`
behaviour). -/
def okVerify : Bytes → Signature → PublicKey → AlgSuite → Except CryptoError Unit :=
  fun _ _ _ _ => .ok ()

/-- An all-rights CLASSIC capability stored at CID 1. -/
def capAll : Capability :=
  { id := 1, alg_suite := 0, holder := 0, target_entity := 0,
    rights := 4294967295, nonce := 0, expiry_lc := none, kind := 0, signature := 0 }

/-- A kernel over the trivial payload with one capability, the default runtime
and a chosen hash function. -/
def baseKernel (hash : Bytes → AlgSuite → Except CryptoError CID) :
    Kernel UnitPayload :=
  { local_lc := 0
    local_vc := []
    state := { capabilities := [(1, capAll)], entities := [], event_log := [] }
    replica_id := 7
    runtime := defaultRuntime
    crypto_hash := hash
    crypto_verify := okVerify
    ops := unitOps }

/-- A well-formed CLASSIC command referencing capability 1. -/
def cmd0 : Command UnitPayload :=
  { id := 5, alg_suite := 0, replica := 9, capability := 1, lclock := 0,
    vclock := none, payload := (), signature := 0 }

/-- The `InvariantViolation` value of `append_delta`'s lclock-consistency
branch. -/
def lclockViolation : KernelError :=
  .InvariantViolation "Entity lclock must equal event lclock"

/-- A saturated kernel (`local_lc = u64::MAX`). -/
def kMax : Kernel UnitPayload := { baseKernel okHash with local_lc := u64MAX }

/-- A command referencing a capability that is not in state. -/
def cmdNoCap : Command UnitPayload := { cmd0 with capability := 99 }

/-- A command carrying the invalid suite tag 4. -/
def cmd6 : Command UnitPayload := { cmd0 with alg_suite := 4 }

/-- A capability itself carrying the invalid suite tag 4. -/
def capBadTag : Capability := { capAll with alg_suite := 4 }

/-- A kernel whose only capability carries the invalid suite tag 4. -/
def k6b : Kernel UnitPayload :=
  { baseKernel okHash with
    state := { capabilities := [(1, capBadTag)], entities := [], event_log := [] } }

/-- A capability expiring at Lamport time 5. -/
def cap7 : Capability := { capAll with expiry_lc := some 5 }

/-- A kernel sitting exactly at the expiry boundary `local_lc = 5`. -/
def k7 : Kernel UnitPayload :=
  { baseKernel okHash with
    local_lc := 5,
    state := { capabilities := [(1, cap7)], entities := [], event_log := [] } }

/-- The event produced by the first successful `apply` on `baseKernel okHash`. -/
def e2w : Event :=
  { id := 0, alg_suite := 0, replica := 7, caused_by := 5, lclock := 1,
    vclock := [(7, 1)], new_entities := [], updated_entities := [], reserved := [] }

/-- The kernel state after that first successful `apply`. -/
def k2post : Kernel UnitPayload := (Amulet.apply (baseKernel okHash) cmd0).2

/-- A kernel with a populated vector clock, for the ingest witness. -/
def k9 : Kernel UnitPayload :=
  { baseKernel okHash with local_lc := 1, local_vc := [(7, 1), (3, 5)] }

/-- A foreign event with overlapping and fresh vclock entries. -/
def e9 : Event :=
  { id := 2, alg_suite := 0, replica := 4, caused_by := 0, lclock := 10,
    vclock := [(3, 2), (4, 9)], new_entities := [], updated_entities := [],
    reserved := [] }

/-- A sample entity at version 1, stamped with lclock 5. -/
def ent1 : Entity :=
  { header := { id := 10, version := 1, lclock := 5, parent := none }, body := [1] }

/-- A delta creating `ent1`. -/
def delta4 : StateDelta := { new_entities := [ent1], updated_entities := [] }

/-- An entity whose stored version sits at `u64::MAX`, stamped with lclock 5. -/
def entMax : Entity :=
  { header := { id := 10, version := u64MAX, lclock := 5, parent := none },
    body := [1] }

/-- An update of entity 10 carrying version 0 — the wrapped successor of
`u64::MAX`. -/
def entWrap0 : Entity :=
  { header := { id := 10, version := 0, lclock := 5, parent := none },
    body := [2] }

/-- A delta updating entity 10 from version `u64::MAX` to version 0. -/
def deltaWrap : StateDelta :=
  { new_entities := [], updated_entities := [entWrap0] }

/-! ### Association-list and vector-clock lemmas -/

theorem alLookup_insert_self {α : Type} (l : List (Nat × α)) (key : Nat) (v : α) :
    alLookup (alInsert l key v) key = some v := by
  induction l with
  | nil => simp [alInsert, alLookup]
  | cons p rest ih =>
      obtain ⟨a, w⟩ := p
      by_cases h : a = key
      · subst h
        simp [alInsert, alLookup]
      · simp [alInsert, alLookup, h, ih]

theorem alLookup_insert_ne {α : Type} (l : List (Nat × α)) (key key' : Nat) (v : α)
    (h : key' ≠ key) : alLookup (alInsert l key v) key' = alLookup l key' := by
  have hk : ¬ key = key' := fun hh => h hh.symm
  induction l with
  | nil => simp [alInsert, alLookup, hk]
  | cons p rest ih =>
      obtain ⟨a, w⟩ := p
      by_cases ha : a = key
      · subst ha
        simp [alInsert, alLookup, hk]
      · by_cases ha' : a = key'
        · simp [alInsert, alLookup, ha, ha', h]
        · simp [alInsert, alLookup, ha, ha', ih]

theorem alLookup_eq_none {α : Type} (l : List (Nat × α)) (key : Nat)
    (h : ∀ p ∈ l, p.1 ≠ key) : alLookup l key = none := by
  induction l with
  | nil => rfl
  | cons p rest ih =>
      obtain ⟨a, w⟩ := p
      have ha : ¬ a = key := h (a, w) (List.mem_cons_self _ _)
      rw [alLookup, if_neg ha]
      exact ih (fun q hq => h q (List.mem_cons_of_mem _ hq))

theorem vcGet_insert_self (vc : VClock) (r : ReplicaID) (v : Nat) :
    vcGet (alInsert vc r v) r = v := by
  simp [vcGet, alLookup_insert_self]

theorem vcGet_insert_ne (vc : VClock) (r r' : ReplicaID) (v : Nat) (h : r' ≠ r) :
    vcGet (alInsert vc r v) r' = vcGet vc r' := by
  simp [vcGet, alLookup_insert_ne _ _ _ _ h]

/-- Pointwise-maximum law for `merge_into`, for any `other` whose rendering has
distinct keys (always true of a `HashMap`). -/
theorem vcGet_merge_into (self other : VClock) (hwf : vclockWF other) (r : ReplicaID) :
    vcGet (merge_into self other) r = max (vcGet self r) (vcGet other r) := by
  induction other generalizing self with
  | nil => simp [merge_into, vcGet, alLookup]
  | cons p rest ih =>
      obtain ⟨a, t⟩ := p
      rw [vclockWF, List.pairwise_cons] at hwf
      obtain ⟨ha, hrest⟩ := hwf
      have hstep : merge_into self ((a, t) :: rest)
          = merge_into (alInsert self a (max (vcGet self a) t)) rest := by
        simp [merge_into]
      rw [hstep, ih _ hrest]
      by_cases hr : r = a
      · subst hr
        have h0 : vcGet rest r = 0 := by
          have : alLookup rest r = none :=
            alLookup_eq_none _ _ (fun q hq => (ha q hq).symm)
          simp [vcGet, this]
        have hhead : vcGet ((r, t) :: rest) r = t := by
          simp [vcGet, alLookup]
        rw [h0, hhead, vcGet_insert_self, Nat.max_comm (max (vcGet self r) t) 0,
          Nat.zero_max]
      · have har : ¬ a = r := fun hh => hr hh.symm
        have hhead : vcGet ((a, t) :: rest) r = vcGet rest r := by
          simp [vcGet, alLookup, har]
        rw [vcGet_insert_ne _ _ _ _ hr, hhead]

/-! ### Sorting lemmas for the digest layout -/

/-- Strict key order on vector-clock entries. -/
def keyLT (p q : ReplicaID × Nat) : Prop := p.1 < q.1

instance : IsAntisymm (ReplicaID × Nat) keyLT :=
  ⟨fun _ _ h h' => absurd (Nat.lt_trans h h') (Nat.lt_irrefl _)⟩

/-- Sorting is a canonical form: permuted CID lists sort identically. -/
theorem sortCids_perm_eq {l1 l2 : List CID} (h : l1.Perm l2) :
    sortCids l1 = sortCids l2 :=
  List.eq_of_perm_of_sorted
    ((List.perm_insertionSort _ l1).trans (h.trans (List.perm_insertionSort _ l2).symm))
    (List.sorted_insertionSort _ l1) (List.sorted_insertionSort _ l2)

/-- Key-sorting is a canonical form on distinct-key entry lists: two renderings
of the same `HashMap` (permutations of each other) sort identically. -/
theorem vcSortedEntries_perm_eq {vc1 vc2 : VClock} (h : vc1.Perm vc2)
    (hwf : vclockWF vc1) : vcSortedEntries vc1 = vcSortedEntries vc2 := by
  have hperm : (vcSortedEntries vc1).Perm (vcSortedEntries vc2) :=
    (List.perm_insertionSort _ vc1).trans (h.trans (List.perm_insertionSort _ vc2).symm)
  have hwf1 : vclockWF (vcSortedEntries vc1) :=
    (List.Perm.pairwise_iff (fun hh => hh.symm) (List.perm_insertionSort _ vc1)).mpr hwf
  have hwf2 : vclockWF (vcSortedEntries vc2) :=
    (List.Perm.pairwise_iff (fun hh => hh.symm) hperm).mp hwf1
  have strict : ∀ vc : VClock, List.Sorted keyLE vc → vclockWF vc →
      List.Sorted keyLT vc := by
    intro vc hs hw
    exact (List.Pairwise.and hs hw).imp
      (fun hh => Nat.lt_of_le_of_ne hh.1 hh.2)
  exact List.eq_of_perm_of_sorted hperm
    (strict _ (List.sorted_insertionSort _ vc1) hwf1)
    (strict _ (List.sorted_insertionSort _ vc2) hwf2)

/-- A byte-buffer fold of appends equals the flat concatenation. -/
theorem foldl_append_eq {α : Type} (f : α → Bytes) (l : List α) (b : Bytes) :
    l.foldl (fun acc x => acc ++ f x) b = b ++ (l.map f).flatten := by
  induction l generalizing b with
  | nil => simp
  | cons x xs ih => simp [ih, List.append_assoc]

/-! ### Bit-level lemmas for the rights algebra -/

theorem one_testBit (i : Nat) : (1 : Nat).testBit i = decide (i = 0) := by
  by_cases h : i = 0
  · subst h
    decide
  · have h1 : (1 : Nat) = 2 ^ 0 := rfl
    rw [h1, Nat.testBit_two_pow_of_ne (fun hh => h hh.symm)]
    simp [h]

theorem land_two_eq (m : Nat) : m &&& 2 = 2 ↔ m.testBit 1 = true := by
  constructor
  · intro h
    have h1 := congrArg (fun x => Nat.testBit x 1) h
    simp only [Nat.testBit_land] at h1
    have h2 : (2 : Nat).testBit 1 = true := by decide
    rw [h2, Bool.and_true] at h1
    exact h1
  · intro h
    apply Nat.eq_of_testBit_eq
    intro j
    rw [Nat.testBit_land]
    by_cases hj : j = 1
    · subst hj
      rw [h, Bool.true_and]
    · have h2 : (2 : Nat).testBit j = false := by
        have hq : (2 : Nat) = 2 ^ 1 := rfl
        rw [hq, Nat.testBit_two_pow_of_ne (fun hh => hj hh.symm)]
      rw [h2, Bool.and_false]

/-- Bitwise characterisation of `canonicalise`: bit 0 picks up bit 1 (WRITE
implies READ); every other bit is untouched. -/
theorem canonicalise_testBit (m i : Nat) :
    (canonicalise m).testBit i = (m.testBit i || (decide (i = 0) && m.testBit 1)) := by
  unfold canonicalise WRITE READ
  by_cases hb : m &&& 2 = 2
  · rw [if_pos hb, Nat.testBit_lor, one_testBit, (land_two_eq m).mp hb, Bool.and_true]
  · rw [if_neg hb]
    have h1 : m.testBit 1 = false := by
      by_contra hc
      exact hb ((land_two_eq m).mpr (Bool.of_not_eq_false hc))
    rw [h1, Bool.and_false, Bool.or_false]

/-! ### Error-shape lemmas (which constructors each stage can return) -/

theorem generate_cid_error_shape {P : Type} (k : Kernel P) (data : Bytes)
    (tag : Nat) (e : KernelError) (h : generate_cid k data tag = .error e) :
    (∃ s, e = .Other s) ∨ (∃ ce, e = .CryptoErr ce) := by
  unfold generate_cid at h
  split at h
  · simp only [Except.error.injEq] at h
    exact Or.inl ⟨_, h.symm⟩
  · split at h
    · simp only [Except.error.injEq] at h
      exact Or.inr ⟨_, h.symm⟩
    · simp at h

theorem materialise_event_error_shape {P : Type} (k : Kernel P) (cmd : Command P)
    (delta : StateDelta) (lc : Nat) (vc : VClock) (e : KernelError)
    (h : materialise_event k cmd delta lc vc = .error e) :
    (∃ s, e = .Other s) ∨ (∃ ce, e = .CryptoErr ce) := by
  unfold materialise_event at h
  dsimp only at h
  split at h
  · rename_i heq
    simp only [Except.error.injEq] at h
    exact h ▸ generate_cid_error_shape _ _ _ _ heq
  · simp at h

theorem verify_signature_error_shape {P : Type} (k : Kernel P) (cmd : Command P)
    (e : KernelError) (h : verify_signature k cmd = .error e) :
    e = .CapabilityNotFound ∨ (∃ s, e = .Other s) ∨ (∃ ce, e = .CryptoErr ce) := by
  unfold verify_signature at h
  split at h
  · simp only [Except.error.injEq] at h
    exact Or.inr (Or.inl ⟨_, h.symm⟩)
  · split at h
    · simp only [Except.error.injEq] at h
      exact Or.inr (Or.inl ⟨_, h.symm⟩)
    · split at h
      · simp only [Except.error.injEq] at h
        exact Or.inl h.symm
      · split at h
        · simp only [Except.error.injEq] at h
          exact Or.inr (Or.inr ⟨_, h.symm⟩)
        · simp at h

theorem validateAfterExpiry_error_shape {P : Type} (k : Kernel P) (cmd : Command P)
    (lc : Nat) (cap : Capability) (e : KernelError)
    (h : validateAfterExpiry k cmd lc cap = .error e) :
    e = .CapabilityNotFound ∨ (∃ s, e = .Other s) ∨ (∃ ce, e = .CryptoErr ce)
      ∨ e = .InsufficientRights ∨ e = .InvalidCommandLClock := by
  unfold validateAfterExpiry at h
  split at h
  · rename_i heq
    simp only [Except.error.injEq] at h
    subst h
    rcases verify_signature_error_shape _ _ _ heq with h1 | h1 | h1
    · exact Or.inl h1
    · exact Or.inr (Or.inl h1)
    · exact Or.inr (Or.inr (Or.inl h1))
  · split at h
    · rename_i heq
      simp only [Except.error.injEq] at h
      subst h
      unfold rights_sufficient at heq
      split at heq
      · simp at heq
      · simp only [Except.error.injEq] at heq
        exact Or.inr (Or.inr (Or.inr (Or.inl heq.symm)))
    · split at h
      · simp only [Except.error.injEq] at h
        exact Or.inr (Or.inr (Or.inr (Or.inr h.symm)))
      · simp at h

/-- Every error produced by `validate_command` itself: no `InvariantViolation`
and no `RuntimeError` can originate in validation. -/
theorem validate_command_error_shape {P : Type} (k : Kernel P) (cmd : Command P)
    (lc : Nat) (e : KernelError) (h : validate_command k cmd lc = .error e) :
    e = .CapabilityNotFound ∨ e = .AlgorithmSuiteMismatch ∨ e = .CapabilityExpired
      ∨ (∃ s, e = .Other s) ∨ (∃ ce, e = .CryptoErr ce)
      ∨ e = .InsufficientRights ∨ e = .InvalidCommandLClock := by
  unfold validate_command at h
  split at h
  · simp only [Except.error.injEq] at h
    exact Or.inl h.symm
  · split at h
    · simp only [Except.error.injEq] at h
      exact Or.inr (Or.inl h.symm)
    · split at h
      · split at h
        · simp only [Except.error.injEq] at h
          exact Or.inr (Or.inr (Or.inl h.symm))
        · rcases validateAfterExpiry_error_shape _ _ _ _ _ h with h1 | h1 | h1 | h1 | h1
          · exact Or.inl h1
          · exact Or.inr (Or.inr (Or.inr (Or.inl h1)))
          · exact Or.inr (Or.inr (Or.inr (Or.inr (Or.inl h1))))
          · exact Or.inr (Or.inr (Or.inr (Or.inr (Or.inr (Or.inl h1)))))
          · exact Or.inr (Or.inr (Or.inr (Or.inr (Or.inr (Or.inr h1)))))
      · rcases validateAfterExpiry_error_shape _ _ _ _ _ h with h1 | h1 | h1 | h1 | h1
        · exact Or.inl h1
        · exact Or.inr (Or.inr (Or.inr (Or.inl h1)))
        · exact Or.inr (Or.inr (Or.inr (Or.inr (Or.inl h1))))
        · exact Or.inr (Or.inr (Or.inr (Or.inr (Or.inr (Or.inl h1)))))
        · exact Or.inr (Or.inr (Or.inr (Or.inr (Or.inr (Or.inr h1)))))

/-- A successfully materialised event carries the supplied lclock and vclock. -/
theorem materialise_event_ok_fields {P : Type} (k : Kernel P) (cmd : Command P)
    (delta : StateDelta) (lc : Nat) (vc : VClock) (e : Event)
    (h : materialise_event k cmd delta lc vc = .ok e) :
    e.lclock = lc ∧ e.vclock = vc := by
  unfold materialise_event at h
  dsimp only at h
  split at h
  · simp at h
  · simp only [Except.ok.injEq] at h
    subst h
    exact ⟨rfl, rfl⟩

/-- Suite tags not in `{0, 1, 2, 3}` fail conversion with the source's message. -/
theorem algSuiteTryFrom_invalid (m : Nat) :
    algSuiteTryFrom (m + 4) = .error ("Invalid AlgSuite tag: " ++ toString (m + 4)) :=
  rfl

/-- With an invalid suite tag, the post-expiry validation tail fails inside
`verify_signature`'s tag conversion, as `KernelError::Other`. -/
theorem validateAfterExpiry_invalid_tag {P : Type} (k : Kernel P) (cmd : Command P)
    (lc : Nat) (cap : Capability) (m : Nat) (hm : cmd.alg_suite = m + 4) :
    validateAfterExpiry k cmd lc cap
      = .error (.Other ("Invalid AlgSuite tag in command: "
          ++ ("Invalid AlgSuite tag: " ++ toString cmd.alg_suite))) := by
  unfold validateAfterExpiry verify_signature
  rw [hm, algSuiteTryFrom_invalid m]

/-- If `validate_command` reports `CapabilityExpired`, the expiry check fired:
the capability has `expiry_lc = Some E` with `E ≤ current_lc`. -/
theorem validate_expired_fired {P : Type} (k : Kernel P) (cmd : Command P)
    (lc : Nat) (cap : Capability)
    (hlk : alLookup k.state.capabilities cmd.capability = some cap)
    (h : validate_command k cmd lc = .error .CapabilityExpired) :
    ∃ E, cap.expiry_lc = some E ∧ E ≤ lc := by
  simp only [validate_command, hlk] at h
  split at h
  · simp at h
  · split at h
    · rename_i E hE
      split at h
      · rename_i hge
        exact ⟨E, hE, hge⟩
      · rcases validateAfterExpiry_error_shape _ _ _ _ _ h with h1 | h1 | ⟨s, h1⟩ | ⟨ce, h1⟩ | h1 <;>
          simp_all
    · rcases validateAfterExpiry_error_shape _ _ _ _ _ h with h1 | h1 | ⟨s, h1⟩ | ⟨ce, h1⟩ | h1 <;>
        simp_all

/-- Every error leaving `append_delta` is an `InvariantViolation`, and the
entity map is returned unchanged alongside it. -/
theorem append_delta_fst_error_shape (entities : List (CID × Entity))
    (delta : StateDelta) (lc : Nat) (e : KernelError) (ents' : List (CID × Entity))
    (h : append_delta entities delta lc = (.error e, ents')) :
    (∃ s, e = .InvariantViolation s) ∧ ents' = entities := by
  unfold append_delta at h
  split at h
  · simp only [Prod.mk.injEq, Except.error.injEq] at h
    exact ⟨⟨_, h.1.symm⟩, h.2.symm⟩
  · split at h
    · simp only [Prod.mk.injEq, Except.error.injEq] at h
      exact ⟨⟨_, h.1.symm⟩, h.2.symm⟩
    · split at h
      · simp only [Prod.mk.injEq, Except.error.injEq] at h
        exact ⟨⟨_, h.1.symm⟩, h.2.symm⟩
      · simp at h

/-- After the kernel's lclock overwrite, `append_delta`'s lclock-consistency
branch can no longer fire. -/
theorem append_delta_set_lclock_no_violation (entities : List (CID × Entity))
    (delta0 : StateDelta) (lc : Nat) :
    (append_delta entities (setDeltaLclocks lc delta0) lc).1
      ≠ .error lclockViolation := by
  intro h
  unfold append_delta at h
  split at h
  · dsimp only at h
    simp only [Except.error.injEq, lclockViolation,
      KernelError.InvariantViolation.injEq] at h
    exact absurd h (by decide)
  · split at h
    · rename_i upd hfind
      dsimp only at h
      simp only [Except.error.injEq, lclockViolation,
        KernelError.InvariantViolation.injEq] at h
      have hlen := congrArg String.length h
      unfold updViolationMsg at hlen
      have h45 : ("Entity version monotonicity violated for CID ").length = 45 := rfl
      have h24 : ("Updated entity with CID ").length = 24 := rfl
      have h19 : (" not found in state").length = 19 := rfl
      have h37 : ("Entity lclock must equal event lclock").length = 37 := rfl
      split at hlen <;>
        simp only [String.length_append, h45, h24, h19, h37] at hlen <;> omega
    · split at h
      · rename_i hany
        obtain ⟨ent, hm, hp⟩ := List.any_eq_true.mp hany
        rcases List.mem_append.mp hm with hm1 | hm1 <;>
        · obtain ⟨e0, _, rfl⟩ := List.mem_map.mp hm1
          simp at hp
      · dsimp only at h
        simp at h

/-- Provenance of errors returned by `apply`: overflow guard, validation,
runtime, `append_delta` on the lclock-overwritten delta, or event
materialisation (whose errors are `Other`/`CryptoErr`). -/
theorem apply_fst_error_provenance {P : Type} (k : Kernel P) (cmd : Command P)
    (e : KernelError) (h : (Amulet.apply k cmd).1 = .error e) :
    e = lamportOverflowError
    ∨ validate_command k cmd k.local_lc = .error e
    ∨ k.runtime k.state cmd = .error e
    ∨ (∃ delta0 ents',
        append_delta k.state.entities
          (setDeltaLclocks (max cmd.lclock (k.local_lc + 1)) delta0)
          (max cmd.lclock (k.local_lc + 1)) = (.error e, ents'))
    ∨ (∃ s, e = .Other s) ∨ (∃ ce, e = .CryptoErr ce) := by
  unfold apply at h
  split at h
  · dsimp only at h
    simp only [Except.error.injEq] at h
    exact Or.inl h.symm
  · dsimp only at h
    split at h
    · rename_i e2 heq
      dsimp only at h
      simp only [Except.error.injEq] at h
      subst h
      exact Or.inr (Or.inl heq)
    · split at h
      · rename_i e2 heq
        dsimp only at h
        simp only [Except.error.injEq] at h
        subst h
        exact Or.inr (Or.inr (Or.inl heq))
      · rename_i delta0 heqr
        split at h
        · rename_i e2 ents1 heqa
          dsimp only at h
          simp only [Except.error.injEq] at h
          subst h
          exact Or.inr (Or.inr (Or.inr (Or.inl ⟨delta0, ents1, heqa⟩)))
        · split at h
          · rename_i e2 heqm
            dsimp only at h
            simp only [Except.error.injEq] at h
            subst h
            exact Or.inr (Or.inr (Or.inr (Or.inr
              (materialise_event_error_shape _ _ _ _ _ _ heqm))))
          · dsimp only at h
            simp at h

/-! ### Digest-layout helper lemmas -/

/-- The source's buffer-appending digest helpers compute the flat
concatenation of the specification's §4.7 layout. -/
theorem get_event_hash_input_flat (cmdId : CID) (lc : Nat) (rid : ReplicaID)
    (tag : Nat) (newCids updCids : List CID) (vc : VClock) (reserved : Bytes) :
    get_event_hash_input cmdId lc rid tag newCids updCids vc reserved
      = specEventHashLayout cmdId lc rid tag newCids updCids vc reserved := by
  have hfn : (fun (b : Bytes) (p : ReplicaID × Nat) => b ++ ridBytes p.1 ++ u64le p.2)
      = fun (b : Bytes) p => b ++ (ridBytes p.1 ++ u64le p.2) := by
    funext b p
    rw [List.append_assoc]
  unfold get_event_hash_input specEventHashLayout append_event_identity_for_digest
    append_cids_for_digest append_vector_clock_for_digest
  dsimp only
  rw [foldl_append_eq, foldl_append_eq, hfn, foldl_append_eq]
  simp [List.append_assoc]

/-- The digest input is invariant under permutations of the entity-CID lists
and of the vector-clock rendering. -/
theorem get_event_hash_input_perm (cmdId : CID) (lc : Nat) (rid : ReplicaID)
    (tag : Nat) (new1 new2 upd1 upd2 : List CID) (vc1 vc2 : VClock)
    (reserved : Bytes) (hn : new1.Perm new2) (hu : upd1.Perm upd2)
    (hv : vc1.Perm vc2) (hwf : vclockWF vc1) :
    get_event_hash_input cmdId lc rid tag new1 upd1 vc1 reserved
      = get_event_hash_input cmdId lc rid tag new2 upd2 vc2 reserved := by
  unfold get_event_hash_input append_cids_for_digest append_vector_clock_for_digest
  rw [sortCids_perm_eq hn, sortCids_perm_eq hu, vcSortedEntries_perm_eq hv hwf]

/-! ### Claim theorems -/

/-- C1: the claim (and spec §4.5/§5) says every erroring `apply` leaves Σ and
both clocks unchanged, explicitly including failures during event
materialisation (CID hashing).  The code violates this: `apply` commits the
delta and advances `local_lc`/`local_vc` before `materialise_event`, whose
hash call may fail under the `CryptoProvider` contract.  At the concrete
failing input below (hash provider returns `Err`, validation succeeds, empty
delta), `apply` returns an error yet both clocks have changed. -/
theorem C1_hash_failure_breaks_atomicity :
    (Amulet.apply (baseKernel failHash) cmd0).1
        = .error (.CryptoErr (.HashingFailure "provider failure"))
    ∧ (baseKernel failHash).local_lc = 0
    ∧ (Amulet.apply (baseKernel failHash) cmd0).2.local_lc = 1
    ∧ (baseKernel failHash).local_vc = []
    ∧ (Amulet.apply (baseKernel failHash) cmd0).2.local_vc = [(7, 1)] :=
  ⟨rfl, rfl, rfl, rfl, rfl⟩

/-- C2: for every command on which `apply` returns `Ok(e)`: `e.lclock` is
`max(c.lclock, prior local_lc + 1)`; the kernel's `local_lc` afterwards equals
`e.lclock`; `e.vclock` maps the kernel's own replica to `e.lclock`; the
kernel's `local_vc` afterwards equals `e.vclock`; and the event log grows by
exactly the element `e` at its end. -/
theorem C2_apply_ok_postconditions : ∀ (P : Type) (k : Kernel P) (cmd : Command P)
    (e : Event) (k' : Kernel P), Amulet.apply k cmd = (.ok e, k') →
    e.lclock = max cmd.lclock (k.local_lc + 1)
    ∧ k'.local_lc = e.lclock
    ∧ vcGet e.vclock k.replica_id = e.lclock
    ∧ k'.local_vc = e.vclock
    ∧ k'.state.event_log = k.state.event_log ++ [e] := by
  intro P k cmd e k' h
  unfold apply at h
  split at h
  · simp at h
  · dsimp only at h
    split at h
    · simp at h
    · split at h
      · simp at h
      · split at h
        · simp at h
        · split at h
          · simp at h
          · rename_i event heqm
            simp only [Prod.mk.injEq, Except.ok.injEq] at h
            obtain ⟨h1, h2⟩ := h
            subst h1
            subst h2
            obtain ⟨hlc, hvc⟩ := materialise_event_ok_fields _ _ _ _ _ _ heqm
            refine ⟨hlc, ?_, ?_, ?_, ?_⟩
            · dsimp only
              exact hlc.symm
            · rw [hvc, vcGet_insert_self]
              exact hlc.symm
            · dsimp only
              exact hvc.symm
            · dsimp only

/-- C2 witness: the first successful `apply` on the concrete kernel. -/
theorem C2_apply_ok_postconditions_witness :
    e2w.lclock = max cmd0.lclock ((baseKernel okHash).local_lc + 1)
    ∧ k2post.local_lc = e2w.lclock
    ∧ vcGet e2w.vclock (baseKernel okHash).replica_id = e2w.lclock
    ∧ k2post.local_vc = e2w.vclock
    ∧ k2post.state.event_log = (baseKernel okHash).state.event_log ++ [e2w] :=
  C2_apply_ok_postconditions UnitPayload (baseKernel okHash) cmd0 e2w k2post rfl

/-- C3: the event-hash input is exactly the spec's flat §4.7 concatenation
(command id, lclock LE, replica id, suite byte, sorted new CIDs, sorted
updated CIDs, marker `0x01` plus key-sorted vclock entries, 4-byte LE length
prefix plus reserved bytes); consequently the digest input — and hence the
computed `event.id` — is invariant under permutations of the new-entity order,
updated-entity order, and VClock insertion order. -/
theorem C3_event_hash_layout_and_permutation :
    (∀ (cmdId : CID) (lc : Nat) (rid : ReplicaID) (tag : Nat)
        (newCids updCids : List CID) (vc : VClock) (reserved : Bytes),
        get_event_hash_input cmdId lc rid tag newCids updCids vc reserved
          = specEventHashLayout cmdId lc rid tag newCids updCids vc reserved)
    ∧ (∀ (cmdId : CID) (lc : Nat) (rid : ReplicaID) (tag : Nat)
        (new1 new2 upd1 upd2 : List CID) (vc1 vc2 : VClock) (reserved : Bytes),
        new1.Perm new2 → upd1.Perm upd2 → vc1.Perm vc2 → vclockWF vc1 →
        get_event_hash_input cmdId lc rid tag new1 upd1 vc1 reserved
          = get_event_hash_input cmdId lc rid tag new2 upd2 vc2 reserved)
    ∧ (∀ (P : Type) (k : Kernel P) (cmd : Command P) (d1 d2 : StateDelta)
        (lc : Nat) (vc1 vc2 : VClock),
        d1.new_entities.Perm d2.new_entities →
        d1.updated_entities.Perm d2.updated_entities →
        vc1.Perm vc2 → vclockWF vc1 →
        (materialise_event k cmd d1 lc vc1).map Event.id
          = (materialise_event k cmd d2 lc vc2).map Event.id) := by
  refine ⟨get_event_hash_input_flat, get_event_hash_input_perm, ?_⟩
  intro P k cmd d1 d2 lc vc1 vc2 hn hu hv hwf
  have hinput := get_event_hash_input_perm cmd.id lc k.replica_id cmd.alg_suite
    (d1.new_entities.map (fun e => e.header.id))
    (d2.new_entities.map (fun e => e.header.id))
    (d1.updated_entities.map (fun e => e.header.id))
    (d2.updated_entities.map (fun e => e.header.id))
    vc1 vc2 [] (hn.map _) (hu.map _) hv hwf
  unfold materialise_event
  dsimp only
  rw [hinput]
  cases hg : generate_cid k (get_event_hash_input cmd.id lc k.replica_id
      cmd.alg_suite (d2.new_entities.map (fun e => e.header.id))
      (d2.updated_entities.map (fun e => e.header.id)) vc2 []) cmd.alg_suite <;>
    simp [Except.map]

/-- C3 witness: a concrete permuted input pair with identical digest input. -/
theorem C3_event_hash_layout_witness :
    get_event_hash_input 0 1 2 0 [3, 1] [4] [(5, 9), (6, 8)] []
      = get_event_hash_input 0 1 2 0 [1, 3] [4] [(6, 8), (5, 9)] [] :=
  C3_event_hash_layout_and_permutation.2.1 0 1 2 0 [3, 1] [1, 3] [4] [4]
    [(5, 9), (6, 8)] [(6, 8), (5, 9)] [] (by decide) (by decide) (by decide)
    (by decide)

/-- C4 counterexample: the claim reads the version check over the integers
("version differs from the stored version + 1"), but the source computes
`prev.header.version + 1` on an unguarded `u64`.  At stored version
`u64::MAX`, an update carrying version 0 — which differs from
`u64::MAX + 1` over the integers, so the claim demands `InvariantViolation`
with the map unchanged — passes the wrapped check: `append_delta` returns
`Ok` and overwrites the entity (release semantics; a debug build panics and
returns no `InvariantViolation` either). -/
theorem C4_counterexample_version_wrap :
    append_delta [(10, entMax)] deltaWrap 5 = (.ok (), [(10, entWrap0)])
    ∧ entWrap0.header.version ≠ entMax.header.version + 1 :=
  ⟨rfl, by decide⟩

/-- C4 amended: `append_delta` returns `InvariantViolation` and leaves the
entity map unchanged exactly when some new entity's CID already exists, some
updated entity is absent, some updated entity's version differs from the
stored version + 1 computed in wrapping 64-bit arithmetic (so at stored
version `u64::MAX` an update carrying version 0 is accepted), or some
entity's lclock differs from `lclock_new`; otherwise it returns `Ok` and
inserts every delta entity keyed by CID. -/
theorem C4_append_delta_invariants : ∀ (entities : List (CID × Entity))
    (delta : StateDelta) (lclock_new : Nat),
    (deltaViolation entities delta lclock_new →
      ∃ msg, append_delta entities delta lclock_new
        = (.error (.InvariantViolation msg), entities))
    ∧ (¬ deltaViolation entities delta lclock_new →
      append_delta entities delta lclock_new = (.ok (), insertAll entities delta)) := by
  intro entities delta lc
  by_cases hc1 : delta.new_entities.any
      (fun ent => (alLookup entities ent.header.id).isSome) = true
  · constructor
    · intro _
      refine ⟨"New entity CID already exists in state", ?_⟩
      unfold append_delta
      rw [if_pos hc1]
    · intro hnv
      obtain ⟨ent, hm, hp⟩ := List.any_eq_true.mp hc1
      exact absurd (Or.inl ⟨ent, hm, hp⟩) hnv
  · rcases hfind : delta.updated_entities.find? (fun upd => updCheckFails entities upd)
      with _ | upd
    · by_cases hc3 : (delta.new_entities ++ delta.updated_entities).any
          (fun ent => ent.header.lclock != lc) = true
      · constructor
        · intro _
          refine ⟨"Entity lclock must equal event lclock", ?_⟩
          unfold append_delta
          rw [if_neg hc1, hfind]
          dsimp only
          rw [if_pos hc3]
        · intro hnv
          obtain ⟨ent, hm, hp⟩ := List.any_eq_true.mp hc3
          exact absurd (Or.inr (Or.inr ⟨ent, hm, by simpa using hp⟩)) hnv
      · refine ⟨fun hv => ?_, fun _ => ?_⟩
        · exfalso
          rcases hv with ⟨ent, hm, hp⟩ | ⟨upd, hm, hp⟩ | ⟨ent, hm, hp⟩
          · exact hc1 (List.any_eq_true.mpr ⟨ent, hm, hp⟩)
          · have hnone := List.find?_eq_none.mp hfind upd hm
            apply hnone
            unfold updCheckFails
            rcases hp with hnone' | ⟨prev, hsome, hver⟩
            · rw [hnone']
            · rw [hsome]
              simpa using hver
          · exact hc3 (List.any_eq_true.mpr ⟨ent, hm, by simpa using hp⟩)
        · unfold append_delta
          rw [if_neg hc1, hfind]
          dsimp only
          rw [if_neg hc3]
          rfl
    · constructor
      · intro _
        refine ⟨updViolationMsg entities upd, ?_⟩
        unfold append_delta
        rw [if_neg hc1, hfind]
      · intro hnv
        have hmem := List.mem_of_find?_eq_some hfind
        have hpred := List.find?_some hfind
        refine absurd (Or.inr (Or.inl ⟨upd, hmem, ?_⟩)) hnv
        unfold updCheckFails at hpred
        rcases hlk : alLookup entities upd.header.id with _ | prev
        · exact Or.inl rfl
        · rw [hlk] at hpred
          exact Or.inr ⟨prev, rfl, by simpa using hpred⟩

/-- C4 witness: a duplicate-CID violation rejected with the map unchanged, and
a clean delta committed. -/
theorem C4_append_delta_invariants_witness :
    (∃ msg, append_delta [(10, ent1)] delta4 5
        = (.error (.InvariantViolation msg), [(10, ent1)]))
    ∧ append_delta [] delta4 5 = (.ok (), insertAll [] delta4) := by
  constructor
  · exact (C4_append_delta_invariants [(10, ent1)] delta4 5).1
      (Or.inl ⟨ent1, by decide, by decide⟩)
  · refine (C4_append_delta_invariants [] delta4 5).2 ?_
    intro hv
    rcases hv with ⟨e, he, hp⟩ | ⟨e, he, hp⟩ | ⟨e, he, hp⟩
    · simp [delta4] at he
      subst he
      simp [ent1, alLookup] at hp
    · simp [delta4] at he
    · simp [delta4] at he
      subst he
      exact hp rfl

/-- C5: whenever `local_lc = u64::MAX`, `apply` returns the Lamport-overflow
error (the spec's `LamportOverflow` kind, realised in `error.rs`-less form as
`KernelError::Other` with the overflow message) before any validation, for
every command, leaving the kernel untouched. -/
theorem C5_lamport_overflow_guard : ∀ (P : Type) (k : Kernel P) (cmd : Command P),
    k.local_lc = u64MAX →
    Amulet.apply k cmd = (.error lamportOverflowError, k) := by
  intro P k cmd h
  unfold apply
  rw [if_pos h]

/-- C5 witness: a saturated kernel rejects even a command whose capability does
not exist — the overflow error takes precedence over every validation step. -/
theorem C5_lamport_overflow_guard_witness :
    Amulet.apply kMax cmdNoCap = (.error lamportOverflowError, kMax) :=
  C5_lamport_overflow_guard UnitPayload kMax cmdNoCap rfl

/-- C6 counterexample: a command with invalid suite tag 4 whose capability
exists with tag 0 is rejected with `AlgorithmSuiteMismatch` — not with any
unsupported-suite/tag-conversion error as the claim states — because
`validate_command` compares raw tags before any conversion is attempted. -/
theorem C6_counterexample_mismatch_first :
    Amulet.apply (baseKernel okHash) cmd6
      = (.error .AlgorithmSuiteMismatch, baseKernel okHash) := rfl

/-- C6 amended: for a command whose suite byte is not in `{0,1,2,3}` and whose
capability exists, `apply` returns `AlgorithmSuiteMismatch` whenever the
capability's tag differs; only when the tags agree (and the capability is
unexpired) does the invalid tag surface — from `verify_signature`'s
conversion, as `KernelError::Other` with the invalid-tag message, there being
no `UnsupportedSuite` variant. -/
theorem C6_amended_invalid_tag_routing : ∀ (P : Type) (k : Kernel P)
    (cmd : Command P) (cap : Capability),
    alLookup k.state.capabilities cmd.capability = some cap →
    4 ≤ cmd.alg_suite →
    k.local_lc ≠ u64MAX →
    ((cmd.alg_suite ≠ cap.alg_suite →
        Amulet.apply k cmd = (.error .AlgorithmSuiteMismatch, k))
     ∧ (cmd.alg_suite = cap.alg_suite →
        (∀ E, cap.expiry_lc = some E → k.local_lc < E) →
        Amulet.apply k cmd = (.error (.Other ("Invalid AlgSuite tag in command: "
            ++ ("Invalid AlgSuite tag: " ++ toString cmd.alg_suite))), k))) := by
  intro P k cmd cap hlk htag hmax
  obtain ⟨m, hm⟩ := Nat.exists_eq_add_of_le htag
  rw [Nat.add_comm] at hm
  constructor
  · intro hne
    have hval : validate_command k cmd k.local_lc = .error .AlgorithmSuiteMismatch := by
      simp only [validate_command, hlk]
      rw [if_pos hne]
    unfold apply
    rw [if_neg hmax, hval]
  · intro heq hexp
    have hval : validate_command k cmd k.local_lc
        = .error (.Other ("Invalid AlgSuite tag in command: "
            ++ ("Invalid AlgSuite tag: " ++ toString cmd.alg_suite))) := by
      simp only [validate_command, hlk]
      rw [if_neg (by simp [heq])]
      cases hce : cap.expiry_lc with
      | none => exact validateAfterExpiry_invalid_tag k cmd k.local_lc cap m hm
      | some E =>
          dsimp only
          rw [if_neg (by
            have := hexp E hce
            omega)]
          exact validateAfterExpiry_invalid_tag k cmd k.local_lc cap m hm
    unfold apply
    rw [if_neg hmax, hval]

/-- C6 amended witness: with capability tag also 4, the invalid tag surfaces
from the signature step as the `Other` invalid-tag error. -/
theorem C6_amended_invalid_tag_routing_witness :
    Amulet.apply k6b cmd6 = (.error (.Other ("Invalid AlgSuite tag in command: "
        ++ ("Invalid AlgSuite tag: " ++ toString cmd6.alg_suite))), k6b) :=
  (C6_amended_invalid_tag_routing UnitPayload k6b cmd6 capBadTag rfl (by decide)
      (by decide)).2 rfl (fun E hE => by simp [capBadTag, capAll] at hE)

/-- C7: for a capability that passes lookup and suite agreement, under a
runtime that does not itself fabricate `CapabilityExpired` (the repo's
`DefaultRuntime` errors never), `apply` fails with `CapabilityExpired` exactly
when `expiry_lc = Some E` and `local_lc ≥ E` — so the boundary `local_lc = E`
is rejected, and neither `local_lc < E` nor `expiry_lc = None` ever triggers
the expiry rejection. -/
theorem C7_capability_expiry_boundary : ∀ (P : Type) (k : Kernel P)
    (cmd : Command P) (cap : Capability),
    alLookup k.state.capabilities cmd.capability = some cap →
    cmd.alg_suite = cap.alg_suite →
    k.local_lc ≠ u64MAX →
    (∀ st c, k.runtime st c ≠ .error .CapabilityExpired) →
    ((Amulet.apply k cmd).1 = .error .CapabilityExpired
      ↔ ∃ E, cap.expiry_lc = some E ∧ E ≤ k.local_lc) := by
  intro P k cmd cap hlk htag hmax hrt
  constructor
  · intro h
    rcases apply_fst_error_provenance k cmd _ h with
      h1 | h1 | h1 | ⟨d0, ents', h1⟩ | (⟨s, h1⟩ | ⟨ce, h1⟩)
    · exact absurd h1 (by simp [lamportOverflowError])
    · exact validate_expired_fired k cmd k.local_lc cap hlk h1
    · exact absurd h1 (hrt _ _)
    · obtain ⟨⟨s, hs⟩, _⟩ := append_delta_fst_error_shape _ _ _ _ _ h1
      exact absurd hs (by simp)
    · exact absurd h1 (by simp)
    · exact absurd h1 (by simp)
  · rintro ⟨E, hE, hle⟩
    have hval : validate_command k cmd k.local_lc = .error .CapabilityExpired := by
      simp only [validate_command, hlk]
      rw [if_neg (by simp [htag]), hE]
      dsimp only
      rw [if_pos hle]
    unfold apply
    rw [if_neg hmax, hval]

/-- C7 witness: at the boundary `local_lc = E = 5` the command is rejected
with `CapabilityExpired`. -/
theorem C7_capability_expiry_boundary_witness :
    (Amulet.apply k7 cmd0).1 = .error .CapabilityExpired :=
  (C7_capability_expiry_boundary UnitPayload k7 cmd0 cap7 rfl rfl (by decide)
      (fun st c h => by simp [k7, baseKernel, defaultRuntime] at h)).mpr
    ⟨5, rfl, by decide⟩

/-- C8: `sufficient(have, need)` is true iff `canonicalise(have) & need = need`;
`canonicalise` adds exactly the rights implied by WRITE ⇒ READ (bit 0 absorbs
bit 1, every other bit — including extension bits — passes through), and it is
idempotent and monotone with respect to bitset inclusion. -/
theorem C8_rights_algebra :
    (∀ haveMask needMask : Nat,
        sufficient haveMask needMask = true
          ↔ canonicalise haveMask &&& needMask = needMask)
    ∧ (∀ m i : Nat, i ≠ 0 → (canonicalise m).testBit i = m.testBit i)
    ∧ (∀ m : Nat, (canonicalise m).testBit 0 = (m.testBit 0 || m.testBit 1))
    ∧ (∀ m : Nat, canonicalise (canonicalise m) = canonicalise m)
    ∧ (∀ m m' : Nat, (∀ i, m.testBit i = true → m'.testBit i = true) →
        ∀ i, (canonicalise m).testBit i = true → (canonicalise m').testBit i = true) := by
  refine ⟨?_, ?_, ?_, ?_, ?_⟩
  · intro hm nm
    simp [sufficient]
  · intro m i hi
    rw [canonicalise_testBit]
    simp [hi]
  · intro m
    rw [canonicalise_testBit]
    simp
  · intro m
    apply Nat.eq_of_testBit_eq
    intro i
    simp only [canonicalise_testBit]
    by_cases hi : i = 0 <;> simp [hi]
  · intro m m' hsub i hbit
    rw [canonicalise_testBit] at hbit ⊢
    simp only [Bool.or_eq_true, Bool.and_eq_true, decide_eq_true_eq] at hbit ⊢
    rcases hbit with hb | ⟨hi, hb⟩
    · exact Or.inl (hsub i hb)
    · exact Or.inr ⟨hi, hsub 1 hb⟩

/-- C8 witness: WRITE alone suffices for READ|WRITE, and DELEGATE passes
through canonicalisation untouched. -/
theorem C8_rights_algebra_witness :
    sufficient WRITE (READ ||| WRITE) = true
    ∧ (canonicalise (WRITE ||| DELEGATE)).testBit 2
        = (WRITE ||| DELEGATE : Nat).testBit 2 :=
  ⟨(C8_rights_algebra.1 WRITE (READ ||| WRITE)).mpr (by decide),
   C8_rights_algebra.2.1 (WRITE ||| DELEGATE) 2 (by decide)⟩

/-- C9: `process_incoming_event` always returns `Ok`, advances `local_lc` to
`max(local_lc, e.lclock)`, merges the event's vclock into `local_vc` by
pointwise maximum (absent entries retained, no entry decreasing), and leaves
Σ — capabilities, entities and the event log — unchanged. -/
theorem C9_process_incoming_event_merges_clocks : ∀ (P : Type) (k : Kernel P)
    (e : Event), vclockWF e.vclock →
    (process_incoming_event k e).1 = .ok ()
    ∧ (process_incoming_event k e).2.local_lc = max k.local_lc e.lclock
    ∧ (∀ r, vcGet (process_incoming_event k e).2.local_vc r
        = max (vcGet k.local_vc r) (vcGet e.vclock r))
    ∧ (∀ r, vcGet k.local_vc r ≤ vcGet (process_incoming_event k e).2.local_vc r)
    ∧ (process_incoming_event k e).2.state = k.state := by
  intro P k e hwf
  refine ⟨rfl, rfl, ?_, ?_, rfl⟩
  · intro r
    exact vcGet_merge_into _ _ hwf r
  · intro r
    rw [show (process_incoming_event k e).2.local_vc
        = merge_into k.local_vc e.vclock from rfl, vcGet_merge_into _ _ hwf r]
    exact Nat.le_max_left _ _

/-- C9 witness: concrete ingest — the Lamport clock jumps to 10, the shared
entry keeps the larger local value, the fresh entry is adopted. -/
theorem C9_process_incoming_event_merges_clocks_witness :
    (process_incoming_event k9 e9).2.local_lc = max k9.local_lc e9.lclock
    ∧ vcGet (process_incoming_event k9 e9).2.local_vc 3
        = max (vcGet k9.local_vc 3) (vcGet e9.vclock 3)
    ∧ (process_incoming_event k9 e9).2.state = k9.state :=
  ⟨(C9_process_incoming_event_merges_clocks UnitPayload k9 e9 (by decide)).2.1,
   (C9_process_incoming_event_merges_clocks UnitPayload k9 e9 (by decide)).2.2.1 3,
   (C9_process_incoming_event_merges_clocks UnitPayload k9 e9 (by decide)).2.2.2.2⟩

/-- C10: since `apply` overwrites every delta entity's `header.lclock` with
`lclock_new` before `append_delta`, the lclock-consistency branch of
`append_delta` is unreachable from `apply`: on the overwritten delta
`append_delta` never returns that violation, and `apply` never returns it for
any runtime that does not fabricate that exact error value itself. -/
theorem C10_lclock_overwrite_unreachable :
    (∀ (entities : List (CID × Entity)) (delta0 : StateDelta) (lc : Nat),
        (append_delta entities (setDeltaLclocks lc delta0) lc).1
          ≠ .error lclockViolation)
    ∧ (∀ (P : Type) (k : Kernel P) (cmd : Command P),
        (∀ st c, k.runtime st c ≠ .error lclockViolation) →
        (Amulet.apply k cmd).1 ≠ .error lclockViolation) := by
  constructor
  · exact append_delta_set_lclock_no_violation
  · intro P k cmd hrt h
    rcases apply_fst_error_provenance k cmd _ h with
      h1 | h1 | h1 | ⟨d0, ents', h1⟩ | (⟨s, h1⟩ | ⟨ce, h1⟩)
    · exact absurd h1 (by simp [lamportOverflowError, lclockViolation])
    · rcases validate_command_error_shape _ _ _ _ h1 with
        h2 | h2 | h2 | ⟨s, h2⟩ | ⟨ce, h2⟩ | h2 | h2 <;>
        simp [lclockViolation] at h2
    · exact hrt _ _ h1
    · exact append_delta_set_lclock_no_violation _ _ _ (by rw [h1])
    · simp [lclockViolation] at h1
    · simp [lclockViolation] at h1

/-- C10 witness: the concrete kernel's `apply` cannot produce the
lclock-consistency violation. -/
theorem C10_lclock_overwrite_unreachable_witness :
    (Amulet.apply (baseKernel okHash) cmd0).1 ≠ .error lclockViolation :=
  C10_lclock_overwrite_unreachable.2 UnitPayload (baseKernel okHash) cmd0
    (fun st c h => by simp [baseKernel, defaultRuntime] at h)

end Amulet
